import Mathlib

/-!
Verification of the mb_album asynchronous processing pipeline.

This file gives a shallow embedding of the core components of the
repository — the adaptive rate limiter (rate_limiter.py), the submission
channel (shared_data.py), the durable queue store (queue_manager.py) and
the worker's per-item pipeline (background_worker.py) — and proves or
refutes the behavioural claims about them.

Floating-point delays are modelled as exact rationals: every operation the
code performs on the delay (multiplication by 1.5, 0.95 or 2.0, min, max)
is monotone and the bounds proved here are exact inequalities that hold
for the IEEE evaluation as well.
-/

namespace MbAlbum

/-! ## Rate limiter (rate_limiter.py, class AdaptiveRateLimiter) -/

/-- Mutable state of AdaptiveRateLimiter: current_delay and the
consecutive-failure counter. -/
structure RLState where
  current_delay : ℚ
  consecutive_failures : ℕ
deriving DecidableEq

/-- rate_limiter.py line 21: min_delay = 1.1 -/
def min_delay : ℚ := 11 / 10

/-- rate_limiter.py line 22: max_delay = 60.0 -/
def max_delay : ℚ := 60

/-- rate_limiter.py line 23: backoff_multiplier = 1.5 -/
def backoff_multiplier : ℚ := 3 / 2

/-- rate_limiter.py line 24: recovery_factor = 0.95 -/
def recovery_factor : ℚ := 19 / 20

/-- rate_limiter.py line 25: max_consecutive_failures = 5 -/
def max_consecutive_failures : ℕ := 5

/-- rate_limiter.py lines 89-102, on_request_success: reset the failure
counter; if the delay is above the minimum, decay it by recovery_factor
but never below min_delay. -/
def on_request_success (s : RLState) : RLState :=
  { consecutive_failures := 0
    current_delay :=
      if min_delay < s.current_delay then
        max (s.current_delay * recovery_factor) min_delay
      else
        s.current_delay }

/-- rate_limiter.py lines 104-123, on_503_error: increment the failure
counter; grow the delay by backoff_multiplier capped at max_delay; if the
counter has reached max_consecutive_failures, additionally double the
delay, still capped at max_delay. -/
def on_503_error (s : RLState) : RLState :=
  let n := s.consecutive_failures + 1
  let d1 := min (s.current_delay * backoff_multiplier) max_delay
  let d2 := if max_consecutive_failures ≤ n then min (d1 * 2) max_delay else d1
  { current_delay := d2, consecutive_failures := n }

/-- A success / unavailable (503) signal delivered to the rate limiter. -/
inductive RLSignal where
  | success
  | unavailable
deriving DecidableEq

/-- Deliver one signal to the limiter state. -/
def rlStep (s : RLState) : RLSignal → RLState
  | .success => on_request_success s
  | .unavailable => on_503_error s

/-- Deliver a sequence of signals, in order. -/
def rlRun (s : RLState) (sigs : List RLSignal) : RLState :=
  sigs.foldl rlStep s

lemma min_delay_pos : (0 : ℚ) < min_delay := by norm_num [min_delay]

lemma min_delay_le_max_delay : min_delay ≤ max_delay := by
  norm_num [min_delay, max_delay]

/-- One success signal keeps the delay within [min_delay, max_delay]. -/
lemma on_request_success_bounds (s : RLState)
    (h1 : min_delay ≤ s.current_delay) (h2 : s.current_delay ≤ max_delay) :
    min_delay ≤ (on_request_success s).current_delay ∧
      (on_request_success s).current_delay ≤ max_delay := by
  unfold on_request_success
  dsimp only
  split
  · constructor
    · exact le_max_right _ _
    · apply max_le _ min_delay_le_max_delay
      have : s.current_delay * recovery_factor ≤ s.current_delay := by
        unfold recovery_factor
        nlinarith [min_delay_pos, h1]
      linarith
  · exact ⟨h1, h2⟩

/-- One 503 signal keeps the delay within [min_delay, max_delay]. -/
lemma on_503_error_bounds (s : RLState)
    (h1 : min_delay ≤ s.current_delay) :
    min_delay ≤ (on_503_error s).current_delay ∧
      (on_503_error s).current_delay ≤ max_delay := by
  unfold on_503_error
  dsimp only
  have hd1low : min_delay ≤ min (s.current_delay * backoff_multiplier) max_delay := by
    apply le_min _ min_delay_le_max_delay
    have : s.current_delay ≤ s.current_delay * backoff_multiplier := by
      unfold backoff_multiplier
      nlinarith [min_delay_pos, h1]
    linarith
  have hd1high : min (s.current_delay * backoff_multiplier) max_delay ≤ max_delay :=
    min_le_right _ _
  split
  · constructor
    · apply le_min _ min_delay_le_max_delay
      nlinarith [min_delay_pos, hd1low]
    · exact min_le_right _ _
  · exact ⟨hd1low, hd1high⟩

/-- Any single signal keeps the delay within [min_delay, max_delay]. -/
lemma rlStep_bounds (s : RLState) (sig : RLSignal)
    (h1 : min_delay ≤ s.current_delay) (h2 : s.current_delay ≤ max_delay) :
    min_delay ≤ (rlStep s sig).current_delay ∧
      (rlStep s sig).current_delay ≤ max_delay := by
  cases sig with
  | success => exact on_request_success_bounds s h1 h2
  | unavailable => exact on_503_error_bounds s h1

lemma rlRun_bounds (sigs : List RLSignal) (s : RLState)
    (h1 : min_delay ≤ s.current_delay) (h2 : s.current_delay ≤ max_delay) :
    min_delay ≤ (rlRun s sigs).current_delay ∧
      (rlRun s sigs).current_delay ≤ max_delay := by
  induction sigs generalizing s with
  | nil => exact ⟨h1, h2⟩
  | cons sig rest ih =>
    have hs := rlStep_bounds s sig h1 h2
    exact ih (rlStep s sig) hs.1 hs.2

/-- Claim C6: starting from any delay within [min_delay, max_delay], the
rate limiter's current_delay stays within those bounds under every
sequence of success and unavailable signals; in particular no sequence of
success signals drives it below min_delay and no sequence of unavailable
signals drives it above max_delay. -/
theorem claim_C6_rate_limiter_bounds (s : RLState) (sigs : List RLSignal)
    (h1 : min_delay ≤ s.current_delay) (h2 : s.current_delay ≤ max_delay) :
    min_delay ≤ (rlRun s sigs).current_delay ∧
      (rlRun s sigs).current_delay ≤ max_delay :=
  rlRun_bounds sigs s h1 h2

/-- Witness for claim C6 at a concrete in-bounds state and signal list. -/
theorem claim_C6_witness :
    min_delay ≤ (rlRun ⟨2, 0⟩ [.unavailable, .unavailable, .success]).current_delay ∧
      (rlRun ⟨2, 0⟩ [.unavailable, .unavailable, .success]).current_delay ≤ max_delay :=
  claim_C6_rate_limiter_bounds ⟨2, 0⟩ [.unavailable, .unavailable, .success]
    (by norm_num [min_delay]) (by norm_num [max_delay])

/-- Claim C7: from any delay d with min_delay ≤ d, one unavailable signal
strictly increases the delay whenever d < max_delay, and leaves it exactly
at max_delay whenever d = max_delay. -/
theorem claim_C7_backoff_strict_increase (s : RLState)
    (h1 : min_delay ≤ s.current_delay) :
    (s.current_delay < max_delay →
      s.current_delay < (on_503_error s).current_delay) ∧
    (s.current_delay = max_delay →
      (on_503_error s).current_delay = max_delay) := by
  constructor
  · intro hlt
    unfold on_503_error
    dsimp only
    have hgrow : s.current_delay < s.current_delay * backoff_multiplier := by
      unfold backoff_multiplier
      nlinarith [min_delay_pos, h1]
    have hd1 : s.current_delay < min (s.current_delay * backoff_multiplier) max_delay :=
      lt_min hgrow hlt
    split
    · exact lt_min (by nlinarith [min_delay_pos, hd1, h1]) hlt
    · exact hd1
  · intro heq
    unfold on_503_error
    dsimp only
    rw [heq]
    have hmaxpos : (0 : ℚ) < max_delay := lt_of_lt_of_le min_delay_pos min_delay_le_max_delay
    have hd1 : min (max_delay * backoff_multiplier) max_delay = max_delay := by
      apply min_eq_right
      unfold backoff_multiplier
      nlinarith
    rw [hd1]
    split
    · apply min_eq_right
      nlinarith
    · rfl

/-- Witness for claim C7 at a concrete state strictly below the cap. -/
theorem claim_C7_witness :
    ((⟨2, 0⟩ : RLState).current_delay < max_delay →
      (⟨2, 0⟩ : RLState).current_delay < (on_503_error ⟨2, 0⟩).current_delay) ∧
    ((⟨2, 0⟩ : RLState).current_delay = max_delay →
      (on_503_error ⟨2, 0⟩).current_delay = max_delay) :=
  claim_C7_backoff_strict_increase ⟨2, 0⟩ (by norm_num [min_delay])

/-! ## Submission channel (shared_data.py, class SharedDataManager)

The mailbox is the newline-delimited file pending_barcodes.txt; a missing
file and an empty file are observationally the same (both read as the
empty list), so the channel state is modelled as the list of queued
identifiers in file order. -/

/-- shared_data.py lines 33-42, add_pending_barcode: append one
identifier to the mailbox file. -/
def add_pending_barcode (q : List String) (b : String) : List String :=
  q ++ [b]

/-- shared_data.py lines 44-56, get_pending_barcodes: read all currently
queued identifiers without removing them. -/
def get_pending_barcodes (q : List String) : List String := q

/-- shared_data.py lines 58-65, clear_pending_barcodes: delete the whole
mailbox file, discarding every identifier it currently holds — including
any appended after the worker's read. -/
def clear_pending_barcodes (_q : List String) : List String := []

/-- background_worker.py lines 133-183, _process_pending_barcodes, as
the worker's drain with one producer submit interleaved between the read
and the removal: the worker reads the mailbox (line 136); an empty read
returns at once (lines 137-138), so the interleaved submit simply lands
in the mailbox and stays queued; a non-empty read is followed by the
dedup/insert work (lines 140-175), during which the submit appends, and
then by clear_pending_barcodes (line 178), which deletes the whole
file — the interleaved submit included. Returns the pair (ids this
drain obtained, mailbox contents afterwards). -/
def drain_with_submit_between (q : List String) (b : String) :
    List String × List String :=
  let drained := get_pending_barcodes q
  if drained.isEmpty then (drained, add_pending_barcode q b)
  else (drained, clear_pending_barcodes (add_pending_barcode q b))

/-- Claim C1 (code bug demonstration): with the mailbox NON-empty at the
worker's read — here it holds "A" — a submit of "B1" landing between the
read (background_worker.py:136) and the removal (line 178) is lost: this
drain returns only "A", the removal then deletes the whole file, and
"B1" is in the mailbox just before the removal yet is neither returned
by this drain nor left queued for a later one. (An empty read is
protected by the early return at lines 137-138, which skips the removal;
the non-empty read has no such guard.) This contradicts the claimed
at-least-once property of drain. -/
theorem claim_C1_drain_loses_concurrent_submit :
    "B1" ∈ add_pending_barcode ["A"] "B1" ∧
    "B1" ∉ (drain_with_submit_between ["A"] "B1").1 ∧
    (drain_with_submit_between ["A"] "B1").2 = [] := by
  decide

/-! ## Durable queue store (queue_manager.py, class QueueManager)

The barcode_queue table is modelled as a list of rows in rowid (insertion)
order; SQLite's CURRENT_TIMESTAMP is a clock value passed to each mutating
operation. The status column only ever holds the four values written by
the worker, so it is an enumeration. -/

/-- QueueItem status values ('pending', 'processing', 'complete',
'failed'). -/
inductive Status where
  | pending
  | processing
  | complete
  | failed
deriving DecidableEq

/-- One row of barcode_queue (queue_manager.py lines 18-39). -/
structure Row where
  barcode : String
  status : Status
  created_at : ℕ
  last_attempt : Option ℕ
  retry_count : ℕ
  error_message : Option String
  metadata_complete : Bool
  coverart_complete : Bool
  tracks_complete : Bool
  artist : Option String
  album : Option String
  release_date : Option String
  mbid : Option String
deriving DecidableEq

/-- The metadata dict produced by extract_metadata_from_result
(async_musicbrainz.py lines 213-251): always carries all four fields. -/
structure Metadata where
  artist : String
  album : String
  release_date : String
  mbid : String
deriving DecidableEq

/-- The three pipeline steps. -/
inductive Step where
  | metadata
  | coverart
  | tracks
deriving DecidableEq

/-- Column defaults of a freshly inserted row (queue_manager.py lines
18-39): status pending, retry 0, all step flags false, no cached
metadata. -/
def newRow (b : String) (now : ℕ) : Row :=
  { barcode := b
    status := .pending
    created_at := now
    last_attempt := none
    retry_count := 0
    error_message := none
    metadata_complete := false
    coverart_complete := false
    tracks_complete := false
    artist := none
    album := none
    release_date := none
    mbid := none }

/-- SELECT ... WHERE barcode = ? : the first row with this barcode
(barcode is UNIQUE, so at most one exists in any reachable store). -/
def rowOf (db : List Row) (b : String) : Option Row :=
  db.find? (fun r => r.barcode = b)

/-- Observed status of a barcode. -/
def statusOf (db : List Row) (b : String) : Option Status :=
  (rowOf db b).map (·.status)

/-- Observed retry_count of a barcode. -/
def retryOf (db : List Row) (b : String) : Option ℕ :=
  (rowOf db b).map (·.retry_count)

/-- Observed error_message of a barcode. -/
def errorOf (db : List Row) (b : String) : Option (Option String) :=
  (rowOf db b).map (·.error_message)

/-- Read a step-completion flag of a row. -/
def stepFlag (r : Row) : Step → Bool
  | .metadata => r.metadata_complete
  | .coverart => r.coverart_complete
  | .tracks => r.tracks_complete

/-- Observed step flag of a barcode. -/
def stepFlagOf (db : List Row) (b : String) (s : Step) : Option Bool :=
  (rowOf db b).map (fun r => stepFlag r s)

/-- queue_manager.py lines 186-196, get_queue_position: count of pending
rows whose created_at is ≤ the target row's created_at; the SQL COUNT is
0 when the barcode is absent (NULL subquery) and the method returns None
when the count is 0. -/
def get_queue_position (db : List Row) (b : String) : Option ℕ :=
  match rowOf db b with
  | none => none
  | some target =>
    let n := (db.filter
      (fun r => decide (r.status = .pending ∧ r.created_at ≤ target.created_at))).length
    if 0 < n then some n else none

/-- Result dict of QueueManager.add_barcode (queue_manager.py lines
101-121). retry_count is reported only on the duplicate branch. -/
structure AddResult where
  success : Bool
  status : Status
  retry_count : Option ℕ
  position : Option ℕ
deriving DecidableEq

/-- queue_manager.py lines 79-124, add_barcode. The fresh branch appends
a pending row and reports its position, computed after the insert on the
SAME connection (lines 91-96; the count is then at least 1, so the
`else 1` default never changes it). The duplicate branch reads the
existing row and leaves the table untouched; when that row is NOT
pending it returns its status with position None. When the duplicate row
IS pending, line 113 calls self.get_queue_position, which re-enters
_get_connection while the non-reentrant self.lock (queue_manager.py
lines 11, 62) is already held by the enclosing `with` of add_barcode:
the thread deadlocks and the call never returns. That hang is modelled
as result none; the table is left as it was, since the only statements
executed before the deadlock were reads (the duplicate INSERT raised
IntegrityError without inserting). -/
def add_barcode (db : List Row) (b : String) (now : ℕ) :
    Option AddResult × List Row :=
  match rowOf db b with
  | some r =>
    (if r.status = .pending then
      none
    else
      some { success := false
             status := r.status
             retry_count := some r.retry_count
             position := none },
     db)
  | none =>
    let db1 := db ++ [newRow b now]
    (some { success := true
            status := .pending
            retry_count := none
            position := some ((get_queue_position db1 b).getD 1) },
     db1)

/-- queue_manager.py lines 126-138, get_next_pending: the pending row
with the smallest created_at (ORDER BY created_at ASC LIMIT 1); on equal
timestamps the earlier row in table order is kept. -/
def get_next_pending : List Row → Option Row
  | [] => none
  | r :: rest =>
    let tail := get_next_pending rest
    if r.status = .pending then
      match tail with
      | none => some r
      | some r2 => if r.created_at ≤ r2.created_at then some r else some r2
    else tail

/-- queue_manager.py lines 140-147, update_status: set status,
last_attempt and error_message (the error column is always overwritten,
with NULL when no message is given) on every row with this barcode. -/
def update_status (db : List Row) (b : String) (st : Status)
    (err : Option String) (now : ℕ) : List Row :=
  db.map (fun r =>
    if r.barcode = b then
      { r with status := st, last_attempt := some now, error_message := err }
    else r)

/-- Merge the metadata cache columns when a metadata dict is supplied
(queue_manager.py lines 160-165; the worker's dict always has all four
fields). -/
def applyMetadata (r : Row) : Option Metadata → Row
  | none => r
  | some m =>
    { r with artist := some m.artist, album := some m.album,
             release_date := some m.release_date, mbid := some m.mbid }

/-- Set one step flag to true. -/
def setStepFlag (r : Row) : Step → Row
  | .metadata => { r with metadata_complete := true }
  | .coverart => { r with coverart_complete := true }
  | .tracks => { r with tracks_complete := true }

/-- queue_manager.py lines 149-175, mark_processing_step_complete: set
the named step flag TRUE, merge any supplied metadata fields, and stamp
last_attempt. -/
def mark_processing_step_complete (db : List Row) (b : String) (s : Step)
    (m : Option Metadata) (now : ℕ) : List Row :=
  db.map (fun r =>
    if r.barcode = b then
      { applyMetadata (setStepFlag r s) m with last_attempt := some now }
    else r)

/-- queue_manager.py lines 177-184, increment_retry_count. -/
def increment_retry_count (db : List Row) (b : String) (now : ℕ) : List Row :=
  db.map (fun r =>
    if r.barcode = b then
      { r with retry_count := r.retry_count + 1, last_attempt := some now }
    else r)

/-- queue_manager.py lines 246-254, reset_failed_barcode: rows with this
barcode AND status failed return to pending with error cleared and retry
count zeroed; step flags are untouched. -/
def reset_failed_barcode (db : List Row) (b : String) : List Row :=
  db.map (fun r =>
    if r.barcode = b ∧ r.status = .failed then
      { r with status := .pending, error_message := none, retry_count := 0 }
    else r)

/-- queue_manager.py lines 198-211, get_barcode_status: the row for this
barcode, if any (the position the Python adds to the returned dict is
derived data and not part of the row). -/
def get_barcode_status (db : List Row) (b : String) : Option Row :=
  rowOf db b

/-! ### Basic lemmas about the store -/

lemma rowOf_map_pres (db : List Row) (b : String) (f : Row → Row)
    (hf : ∀ r, (f r).barcode = r.barcode) :
    rowOf (db.map f) b = (rowOf db b).map f := by
  unfold rowOf
  rw [List.find?_map]
  have hpred : ((fun r : Row => decide (r.barcode = b)) ∘ f)
      = (fun r : Row => decide (r.barcode = b)) := by
    funext r
    simp [Function.comp, hf]
  rw [hpred]

lemma barcode_of_rowOf {db : List Row} {b : String} {r : Row}
    (h : rowOf db b = some r) : r.barcode = b := by
  have := List.find?_some h
  simpa using this

lemma mem_of_rowOf {db : List Row} {b : String} {r : Row}
    (h : rowOf db b = some r) : r ∈ db :=
  List.mem_of_find?_eq_some h

lemma rowOf_none_iff {db : List Row} {b : String} :
    rowOf db b = none ↔ ∀ r ∈ db, r.barcode ≠ b := by
  unfold rowOf
  rw [List.find?_eq_none]
  simp

lemma rowOf_append_left {db l : List Row} {b : String} {r : Row}
    (h : rowOf db b = some r) : rowOf (db ++ l) b = some r := by
  unfold rowOf at h ⊢
  rw [List.find?_append, h]
  rfl

/-! ### Claim C4: idempotent insert -/

/-- Claim C4 (code bug demonstration): inserting the fresh identifier
"X" creates one pending row and reports position 1; the second insert of
"X" finds the existing row still pending, so its duplicate branch calls
get_queue_position while the non-reentrant store lock is already held —
the call deadlocks (modelled as result none) and never returns the
existing record's status and position that the claim (and the spec's
insert contract) promise. The table itself is left with exactly the one
row, unmodified. -/
theorem claim_C4_duplicate_pending_insert_hangs :
    (add_barcode [] "X" 0).1
      = some { success := true, status := .pending,
               retry_count := none, position := some 1 } ∧
    ((add_barcode [] "X" 0).2.filter (fun r => decide (r.barcode = "X"))).length = 1 ∧
    statusOf (add_barcode [] "X" 0).2 "X" = some .pending ∧
    (add_barcode (add_barcode [] "X" 0).2 "X" 1).1 = none ∧
    (add_barcode (add_barcode [] "X" 0).2 "X" 1).2 = (add_barcode [] "X" 0).2 := by
  decide

/-! ### Claim C9: FIFO next_pending -/

lemma get_next_pending_none {db : List Row} (h : get_next_pending db = none) :
    ∀ r ∈ db, r.status ≠ .pending := by
  induction db with
  | nil => simp
  | cons a rest ih =>
    intro r hr
    rw [get_next_pending] at h
    by_cases ha : a.status = .pending
    · rw [if_pos ha] at h
      cases htail : get_next_pending rest with
      | none =>
        rw [htail] at h
        exact Option.noConfusion h
      | some m =>
        rw [htail] at h
        dsimp only at h
        split at h <;> exact Option.noConfusion h
    · rw [if_neg ha] at h
      rcases List.mem_cons.mp hr with rfl | hr2
      · exact ha
      · exact ih h r hr2

lemma get_next_pending_mem {db : List Row} {r : Row}
    (h : get_next_pending db = some r) : r ∈ db ∧ r.status = .pending := by
  induction db with
  | nil => simp [get_next_pending] at h
  | cons a rest ih =>
    rw [get_next_pending] at h
    by_cases ha : a.status = .pending
    · rw [if_pos ha] at h
      cases htail : get_next_pending rest with
      | none =>
        rw [htail] at h
        dsimp only at h
        obtain rfl : a = r := Option.some.inj h
        exact ⟨List.mem_cons_self _ _, ha⟩
      | some m =>
        rw [htail] at h
        dsimp only at h
        split at h
        · obtain rfl : a = r := Option.some.inj h
          exact ⟨List.mem_cons_self _ _, ha⟩
        · obtain rfl : m = r := Option.some.inj h
          obtain ⟨hm, hp⟩ := ih htail
          exact ⟨List.mem_cons_of_mem _ hm, hp⟩
    · rw [if_neg ha] at h
      obtain ⟨hm, hp⟩ := ih h
      exact ⟨List.mem_cons_of_mem _ hm, hp⟩

lemma get_next_pending_min {db : List Row} {r : Row}
    (h : get_next_pending db = some r) :
    ∀ r2 ∈ db, r2.status = .pending → r.created_at ≤ r2.created_at := by
  induction db generalizing r with
  | nil => simp [get_next_pending] at h
  | cons a rest ih =>
    intro r2 hr2 hp2
    rw [get_next_pending] at h
    by_cases ha : a.status = .pending
    · rw [if_pos ha] at h
      cases htail : get_next_pending rest with
      | none =>
        rw [htail] at h
        dsimp only at h
        obtain rfl : a = r := Option.some.inj h
        rcases List.mem_cons.mp hr2 with rfl | hmem
        · exact le_refl _
        · exact absurd hp2 (get_next_pending_none htail r2 hmem)
      | some m =>
        rw [htail] at h
        dsimp only at h
        split at h
        · rename_i hle
          obtain rfl : a = r := Option.some.inj h
          rcases List.mem_cons.mp hr2 with rfl | hmem
          · exact le_refl _
          · exact le_trans hle (ih htail r2 hmem hp2)
        · rename_i hnle
          obtain rfl : m = r := Option.some.inj h
          rcases List.mem_cons.mp hr2 with rfl | hmem
          · exact le_of_lt (lt_of_not_le hnle)
          · exact ih htail r2 hmem hp2
    · rw [if_neg ha] at h
      rcases List.mem_cons.mp hr2 with rfl | hmem
      · exact absurd hp2 ha
      · exact ih h r2 hmem hp2

/-- Claim C9: get_next_pending returns none exactly when no pending row
exists, and otherwise returns a pending row of the store whose created_at
is minimal among all pending rows. -/
theorem claim_C9_next_pending_fifo (db : List Row) :
    (get_next_pending db = none ↔ ∀ r ∈ db, r.status ≠ .pending) ∧
    (∀ r, get_next_pending db = some r →
      r ∈ db ∧ r.status = .pending ∧
      ∀ r2 ∈ db, r2.status = .pending → r.created_at ≤ r2.created_at) := by
  constructor
  · constructor
    · exact fun h => get_next_pending_none h
    · intro hall
      cases h : get_next_pending db with
      | none => rfl
      | some r =>
        obtain ⟨hm, hp⟩ := get_next_pending_mem h
        exact absurd hp (hall r hm)
  · intro r h
    obtain ⟨hm, hp⟩ := get_next_pending_mem h
    exact ⟨hm, hp, get_next_pending_min h⟩

/-- Witness for claim C9 at a concrete two-row store: the earlier-created
pending row is returned ahead of the later one, and a processing row is
never returned. -/
theorem claim_C9_witness :
    (get_next_pending [{ newRow "A" 7 with status := .processing }, newRow "B" 9, newRow "C" 4]
        = none ↔
      ∀ r ∈ [{ newRow "A" 7 with status := .processing }, newRow "B" 9, newRow "C" 4],
        r.status ≠ .pending) ∧
    (∀ r, get_next_pending
        [{ newRow "A" 7 with status := .processing }, newRow "B" 9, newRow "C" 4] = some r →
      r ∈ [{ newRow "A" 7 with status := .processing }, newRow "B" 9, newRow "C" 4] ∧
      r.status = .pending ∧
      ∀ r2 ∈ [{ newRow "A" 7 with status := .processing }, newRow "B" 9, newRow "C" 4],
        r2.status = .pending → r.created_at ≤ r2.created_at) :=
  claim_C9_next_pending_fifo
    [{ newRow "A" 7 with status := .processing }, newRow "B" 9, newRow "C" 4]

/-! ### Claim C10: queue position and ties -/

/-- Two pending rows inserted at the same timestamp 5, "A" first. -/
def tieRowA : Row := newRow "A" 5

/-- Second pending row sharing created_at = 5. -/
def tieRowB : Row := newRow "B" 5

/-- Store holding the two tied rows, "A" inserted before "B". -/
def tieDb : List Row := [tieRowA, tieRowB]

/-- Claim C10 counterexample: two pending items sharing created_at = 5 do
NOT receive distinct consecutive ranks — get_queue_position gives both of
them rank 2 (the count of pending rows with created_at ≤ 5), with no tie
break by insertion order. -/
theorem claim_C10_ties_same_rank :
    get_queue_position tieDb "A" = some 2 ∧
    get_queue_position tieDb "B" = some 2 ∧
    get_queue_position tieDb "A" = get_queue_position tieDb "B" := by
  decide

/-- Claim C10 as amended: for every pending item, position(id) is some n
where n is the count of pending rows with created_at ≤ the item's
created_at (and n ≥ 1, the item counting itself); rows sharing the same
created_at receive the SAME position, not distinct consecutive ranks. -/
theorem claim_C10_amended_position_count (db : List Row) (b : String) (r : Row)
    (hfind : rowOf db b = some r) (hp : r.status = .pending) :
    get_queue_position db b =
      some ((db.filter
        (fun x => decide (x.status = .pending ∧ x.created_at ≤ r.created_at))).length) ∧
    0 < (db.filter
        (fun x => decide (x.status = .pending ∧ x.created_at ≤ r.created_at))).length ∧
    (∀ b2 r2, rowOf db b2 = some r2 → r2.created_at = r.created_at →
      get_queue_position db b2 = get_queue_position db b) := by
  have hmemf : r ∈ db.filter
      (fun x => decide (x.status = .pending ∧ x.created_at ≤ r.created_at)) :=
    List.mem_filter.mpr ⟨mem_of_rowOf hfind, by simp [hp]⟩
  have hpos : 0 < (db.filter
      (fun x => decide (x.status = .pending ∧ x.created_at ≤ r.created_at))).length :=
    List.length_pos.mpr (List.ne_nil_of_mem hmemf)
  refine ⟨?_, hpos, ?_⟩
  · rw [get_queue_position, hfind]
    dsimp only
    rw [if_pos hpos]
  · intro b2 r2 hfind2 heq
    rw [get_queue_position, hfind2, get_queue_position, hfind]
    dsimp only
    rw [heq]

/-- Witness for claim C10 (amended) at the tied two-row store. -/
theorem claim_C10_witness :
    get_queue_position tieDb "A" =
      some ((tieDb.filter
        (fun x => decide (x.status = .pending ∧ x.created_at ≤ tieRowA.created_at))).length) ∧
    0 < (tieDb.filter
        (fun x => decide (x.status = .pending ∧ x.created_at ≤ tieRowA.created_at))).length ∧
    (∀ b2 r2, rowOf tieDb b2 = some r2 → r2.created_at = tieRowA.created_at →
      get_queue_position tieDb b2 = get_queue_position tieDb "A") :=
  claim_C10_amended_position_count tieDb "A" tieRowA (by decide) (by decide)

/-! ### Claim C5: step flags are monotone under every store operation -/

/-- The mutating operations of QueueManager (add_barcode, update_status,
mark_processing_step_complete, increment_retry_count,
reset_failed_barcode). -/
inductive QOp where
  | add (b : String) (t : ℕ)
  | setStatus (b : String) (st : Status) (err : Option String) (t : ℕ)
  | completeStep (b : String) (s : Step) (m : Option Metadata) (t : ℕ)
  | incRetry (b : String) (t : ℕ)
  | resetFailed (b : String)

/-- Run one store operation. -/
def applyOp (db : List Row) : QOp → List Row
  | .add b t => (add_barcode db b t).2
  | .setStatus b st err t => update_status db b st err t
  | .completeStep b s m t => mark_processing_step_complete db b s m t
  | .incRetry b t => increment_retry_count db b t
  | .resetFailed b => reset_failed_barcode db b

/-- Run a sequence of store operations, in order. -/
def applyOps (db : List Row) (ops : List QOp) : List Row :=
  ops.foldl applyOp db

lemma stepFlag_applyMetadata (r : Row) (m : Option Metadata) (s : Step) :
    stepFlag (applyMetadata r m) s = stepFlag r s := by
  cases m <;> cases s <;> rfl

lemma stepFlag_setStepFlag_mono (r : Row) (s s2 : Step)
    (h : stepFlag r s = true) : stepFlag (setStepFlag r s2) s = true := by
  cases s <;> cases s2 <;> simp_all [stepFlag, setStepFlag]

lemma stepFlagOf_map_mono (db : List Row) (b : String) (s : Step) (f : Row → Row)
    (hf : ∀ r, (f r).barcode = r.barcode)
    (hmono : ∀ r, stepFlag r s = true → stepFlag (f r) s = true)
    (h : stepFlagOf db b s = some true) :
    stepFlagOf (db.map f) b s = some true := by
  unfold stepFlagOf at h ⊢
  rw [rowOf_map_pres db b f hf]
  cases hrow : rowOf db b with
  | none => rw [hrow] at h; exact Option.noConfusion h
  | some r =>
    rw [hrow] at h
    have hflag : stepFlag r s = true := by simpa using h
    simp [hmono r hflag]

lemma applyOp_flag_mono (db : List Row) (op : QOp) (b : String) (s : Step)
    (h : stepFlagOf db b s = some true) :
    stepFlagOf (applyOp db op) b s = some true := by
  cases op with
  | add b2 t =>
    rw [applyOp, add_barcode]
    cases hrow : rowOf db b2 with
    | some r => exact h
    | none =>
      dsimp only
      obtain ⟨r, hr⟩ : ∃ r, rowOf db b = some r := by
        unfold stepFlagOf at h
        cases hx : rowOf db b with
        | none => rw [hx] at h; exact Option.noConfusion h
        | some r => exact ⟨r, rfl⟩
      unfold stepFlagOf at h ⊢
      rw [hr] at h
      rw [rowOf_append_left hr]
      exact h
  | setStatus b2 st err t =>
    refine stepFlagOf_map_mono db b s _ ?_ ?_ h
    · intro r
      by_cases hb : r.barcode = b2 <;> simp [hb]
    · intro r hr
      by_cases hb : r.barcode = b2
      · cases s <;> simpa [stepFlag, hb] using hr
      · simpa [hb] using hr
  | completeStep b2 s2 m t =>
    refine stepFlagOf_map_mono db b s _ ?_ ?_ h
    · intro r
      by_cases hb : r.barcode = b2
      · cases m <;> cases s2 <;> simp [hb, applyMetadata, setStepFlag]
      · simp [hb]
    · intro r hr
      by_cases hb : r.barcode = b2
      · have h1 := stepFlag_setStepFlag_mono r s s2 hr
        have h2 := stepFlag_applyMetadata (setStepFlag r s2) m s
        simp only [hb, if_pos]
        cases s <;> simp_all [stepFlag]
      · simpa [hb] using hr
  | incRetry b2 t =>
    refine stepFlagOf_map_mono db b s _ ?_ ?_ h
    · intro r
      by_cases hb : r.barcode = b2 <;> simp [hb]
    · intro r hr
      by_cases hb : r.barcode = b2
      · cases s <;> simpa [stepFlag, hb] using hr
      · simpa [hb] using hr
  | resetFailed b2 =>
    refine stepFlagOf_map_mono db b s _ ?_ ?_ h
    · intro r
      by_cases hb : r.barcode = b2 ∧ r.status = .failed <;> simp [hb]
    · intro r hr
      by_cases hb : r.barcode = b2 ∧ r.status = .failed
      · cases s <;> simpa [stepFlag, hb] using hr
      · simpa [hb] using hr

/-- Claim C5: once a step-completion flag of an item is true, no sequence
of further store operations (inserts, status updates, step completions,
retry increments, or the operator reset of a failed item) ever sets it
back to false. -/
theorem claim_C5_step_flags_monotone (ops : List QOp) (db : List Row)
    (b : String) (s : Step) (h : stepFlagOf db b s = some true) :
    stepFlagOf (applyOps db ops) b s = some true := by
  induction ops generalizing db with
  | nil => exact h
  | cons op rest ih => exact ih (applyOp db op) (applyOp_flag_mono db op b s h)

/-- Witness for claim C5: an item with metadata_complete = true keeps it
through a failure, a reset to pending, a retry increment and another
step completion. -/
theorem claim_C5_witness :
    stepFlagOf
      (applyOps [{ newRow "X" 0 with metadata_complete := true }]
        [.setStatus "X" .failed (some "boom") 1, .resetFailed "X",
         .incRetry "X" 2, .completeStep "X" .coverart none 3])
      "X" .metadata = some true :=
  claim_C5_step_flags_monotone
    [.setStatus "X" .failed (some "boom") 1, .resetFailed "X",
     .incRetry "X" 2, .completeStep "X" .coverart none 3]
    [{ newRow "X" 0 with metadata_complete := true }] "X" .metadata (by decide)

/-! ## External metadata client (async_musicbrainz.py, class
RateLimitedMusicBrainz)

The transport-level outcome of one client call is an environment value;
the client translates it into the error taxonomy exactly as the Python
except-clauses do. The crucial detail for claim C2 is async_musicbrainz.py
lines 59-61 (and 92-94): a generic exception inside the client is
re-raised as MusicBrainzError("Unexpected error: ..."), i.e. it leaves the
client as a CLASSIFIED API error, not as an unexpected one. -/

/-- Transport outcome of one lookup_by_barcode call: a match, no match, a
WebServiceError with code 503, a WebServiceError with another code, or
any other exception raised inside the client. The matched release is
abstracted to the metadata extract_metadata_from_result produces from
it. -/
inductive RawLookup where
  | found (meta : Metadata)
  | notFound
  | wsError503 (msg : String)
  | wsErrorOther (msg : String)
  | unexpected (msg : String)
deriving DecidableEq

/-- Transport outcome of one get_track_names call. -/
inductive RawTracks where
  | ok (tracks : List String)
  | wsError503 (msg : String)
  | wsErrorOther (msg : String)
  | unexpected (msg : String)
deriving DecidableEq

/-- Errors reaching the worker's except-clauses
(background_worker.py lines 398-429): ServiceUnavailableError,
MusicBrainzError, or any other exception. -/
inductive PipeErr where
  | svcUnavailable (msg : String)
  | mbError (msg : String)
  | unexpected (msg : String)
deriving DecidableEq

/-- async_musicbrainz.py lines 24-61, lookup_by_barcode: a 503
WebServiceError becomes ServiceUnavailableError, any other
WebServiceError becomes MusicBrainzError, and ANY other exception is
wrapped into MusicBrainzError("Unexpected error: ...") — never into an
unclassified error. -/
def lookup_by_barcode : RawLookup → Except PipeErr (Option Metadata)
  | .found m => .ok (some m)
  | .notFound => .ok none
  | .wsError503 msg =>
    .error (.svcUnavailable ("MusicBrainz service unavailable: " ++ msg))
  | .wsErrorOther msg => .error (.mbError ("MusicBrainz API error: " ++ msg))
  | .unexpected msg => .error (.mbError ("Unexpected error: " ++ msg))

/-- async_musicbrainz.py lines 63-94, get_track_names: same error
translation as lookup_by_barcode. -/
def get_track_names : RawTracks → Except PipeErr (List String)
  | .ok ts => .ok ts
  | .wsError503 msg =>
    .error (.svcUnavailable ("MusicBrainz service unavailable: " ++ msg))
  | .wsErrorOther msg => .error (.mbError ("MusicBrainz API error: " ++ msg))
  | .unexpected msg => .error (.mbError ("Unexpected error: " ++ msg))

/-! ## Worker per-item pipeline (background_worker.py, class
BackgroundWorker) -/

/-- background_worker.py line 45: max_retries = 3. -/
def max_retries : ℕ := 3

/-- Python truthiness of item.get('mbid'): a known external id is a
non-NULL, non-empty string. -/
def mbidKnown (r : Row) : Bool :=
  match r.mbid with
  | none => false
  | some s => decide (s ≠ "")

/-- Outcome of the cover-art fetch attempt for an item whose external id
is known (background_worker.py lines 302-359 with
async_musicbrainz.py download_cover_art):
cached = the expected file already exists non-empty;
fetched = download_cover_art returned true (it verifies the written
file itself, async_musicbrainz.py lines 150-167, so the worker's
re-verification succeeds);
unavailable = download_cover_art returned false (404, 503, connection
problems, empty body — it never raises);
raisedExn = some statement inside the worker's try block raised. -/
inductive CoverOutcome where
  | cached
  | fetched
  | unavailable
  | raisedExn (msg : String)
deriving DecidableEq

/-- All transport outcomes of one pipeline run. catalogWriteExn injects
an unexpected exception from the catalog-CSV write
(background_worker.py line 282, write_release_to_csv), a worker
statement OUTSIDE the metadata client. -/
structure Env where
  rawLookup : RawLookup
  catalogWriteExn : Option String
  cover : CoverOutcome
  rawTracks : RawTracks

/-- background_worker.py lines 472-516, _append_to_no_coverart_csv: the
no-result ledger keyed by barcode; an entry already present is not
duplicated. -/
def append_to_no_coverart (ledger : List String) (b : String) : List String :=
  if b ∈ ledger then ledger else ledger ++ [b]

/-- True when the cover-art step obtained no image: either no external id
is known, or the fetch attempt ended unavailable or in an exception.
This is the condition under which background_worker.py sets
coverart_failed (lines 298, 339, 342, 345, 356, 362) and then appends to
the ledger (lines 367-371). -/
def cover_no_image (r : Row) (o : CoverOutcome) : Bool :=
  if mbidKnown r then
    match o with
    | .cached => false
    | .fetched => false
    | .unavailable => true
    | .raisedExn _ => true
  else true

/-- background_worker.py lines 296-373, the cover-art step. When the
flag is already true the step is skipped. Otherwise every branch —
existing file, verified download, unavailable, exception, or no external
id — marks the coverart step complete (the code marks it a second time
in the verified-download branch, an idempotent repeat), and exactly the
no-image branches append the barcode to the no-result ledger. The step
itself never touches the status column. -/
def cover_art_step (db : List Row) (item2 : Row) (outcome : CoverOutcome)
    (ledger : List String) (now : ℕ) : List Row × List String :=
  if item2.coverart_complete then (db, ledger)
  else if mbidKnown item2 then
    match outcome with
    | .cached =>
      (mark_processing_step_complete db item2.barcode .coverart none now, ledger)
    | .fetched =>
      (mark_processing_step_complete db item2.barcode .coverart none now, ledger)
    | .unavailable =>
      (mark_processing_step_complete db item2.barcode .coverart none now,
       append_to_no_coverart ledger item2.barcode)
    | .raisedExn _ =>
      (mark_processing_step_complete db item2.barcode .coverart none now,
       append_to_no_coverart ledger item2.barcode)
  else
    (mark_processing_step_complete db item2.barcode .coverart none now,
     append_to_no_coverart ledger item2.barcode)

/-- background_worker.py lines 381-392, the track-listing step: skipped
when already complete; with a known external id the client call may
raise (propagating to the outer handlers), otherwise the step is marked
complete whether or not tracks were found. -/
def tracks_step (db : List Row) (item3 : Row) (raw : RawTracks) (now : ℕ) :
    List Row × Option PipeErr :=
  if item3.tracks_complete then (db, none)
  else if mbidKnown item3 then
    match get_track_names raw with
    | .error e => (db, some e)
    | .ok _ => (mark_processing_step_complete db item3.barcode .tracks none now, none)
  else (mark_processing_step_complete db item3.barcode .tracks none now, none)

/-- background_worker.py lines 290-396: the pipeline after the metadata
step — reload the item, run the cover-art step, reload again, run the
track step, then mark the item complete. A missing row aborts silently
(lines 292-293, 377-378). -/
def steps_after_metadata (db : List Row) (b : String) (env : Env)
    (ledger : List String) (now : ℕ) :
    (List Row × List String) × Option PipeErr :=
  match get_barcode_status db b with
  | none => ((db, ledger), none)
  | some item2 =>
    let s2 := cover_art_step db item2 env.cover ledger now
    match get_barcode_status s2.1 b with
    | none => (s2, none)
    | some item3 =>
      match tracks_step s2.1 item3 env.rawTracks now with
      | (db3, some e) => ((db3, s2.2), some e)
      | (db3, none) => ((update_status db3 b .complete none now, s2.2), none)

/-- background_worker.py lines 269-396, the try-body of
_process_barcode_item: mark the item processing, run the metadata step
(not-found is terminal, a raised error aborts the body), write the
catalog record (where a worker-side unexpected exception may arise),
persist the extracted metadata, then the remaining steps. The returned
error, if any, is what reaches the except-clauses, together with the
store as already mutated. -/
def pipeline_body (db0 : List Row) (item : Row) (env : Env)
    (ledger : List String) (now : ℕ) :
    (List Row × List String) × Option PipeErr :=
  let b := item.barcode
  let db1 := update_status db0 b .processing none now
  if item.metadata_complete then steps_after_metadata db1 b env ledger now
  else
    match lookup_by_barcode env.rawLookup with
    | .error e => ((db1, ledger), some e)
    | .ok none =>
      ((update_status db1 b .failed (some "No album found for barcode") now,
        ledger), none)
    | .ok (some meta) =>
      match env.catalogWriteExn with
      | some msg => ((db1, ledger), some (.unexpected msg))
      | none =>
        steps_after_metadata
          (mark_processing_step_complete db1 b .metadata (some meta) now)
          b env ledger now

/-- background_worker.py lines 398-429, the except-clauses of
_process_barcode_item. retry_count is the value captured from the item
BEFORE the attempt (line 265). ServiceUnavailableError and
MusicBrainzError increment the retry count and either fail the item
(when the budget of max_retries is exhausted) or return it to pending;
any other exception fails the item immediately with the exception detail
and without touching the retry count. -/
def handle_pipeline_error (db : List Row) (b : String) (retry_count : ℕ)
    (e : PipeErr) (now : ℕ) : List Row :=
  match e with
  | .svcUnavailable msg =>
    let db1 := increment_retry_count db b now
    if max_retries ≤ retry_count + 1 then
      update_status db1 b .failed (some ("Max retries exceeded: " ++ msg)) now
    else update_status db1 b .pending none now
  | .mbError msg =>
    let db1 := increment_retry_count db b now
    if max_retries ≤ retry_count + 1 then
      update_status db1 b .failed (some msg) now
    else update_status db1 b .pending none now
  | .unexpected msg =>
    update_status db b .failed (some ("Unexpected error: " ++ msg)) now

/-- background_worker.py lines 262-429, _process_barcode_item: run the
try-body, then dispatch any raised error to the handlers. -/
def process_barcode_item (db0 : List Row) (item : Row) (env : Env)
    (ledger : List String) (now : ℕ) : List Row × List String :=
  match pipeline_body db0 item env ledger now with
  | (s, none) => s
  | ((db, l), some e) =>
    (handle_pipeline_error db item.barcode item.retry_count e now, l)

/-- One iteration of the worker loop's dequeue-and-process part
(background_worker.py lines 90-99): pick the next pending item, if any,
and process it. -/
def run_attempt (db : List Row) (env : Env) (ledger : List String)
    (now : ℕ) : List Row × List String :=
  match get_next_pending db with
  | none => (db, ledger)
  | some item => process_barcode_item db item env ledger now

/-! ### Lemmas about store updates seen through rowOf -/

lemma rowOf_update_status {db : List Row} {b : String} {r : Row}
    (hfind : rowOf db b = some r) (st : Status) (err : Option String) (now : ℕ) :
    rowOf (update_status db b st err now) b
      = some { r with status := st, last_attempt := some now, error_message := err } := by
  unfold update_status
  have hf : ∀ x : Row,
      ((if x.barcode = b then
        { x with status := st, last_attempt := some now, error_message := err }
      else x)).barcode = x.barcode := by
    intro x
    by_cases hb : x.barcode = b <;> simp [hb]
  rw [rowOf_map_pres db b _ hf, hfind]
  simp [barcode_of_rowOf hfind]

lemma rowOf_increment_retry {db : List Row} {b : String} {r : Row}
    (hfind : rowOf db b = some r) (now : ℕ) :
    rowOf (increment_retry_count db b now) b
      = some { r with retry_count := r.retry_count + 1, last_attempt := some now } := by
  unfold increment_retry_count
  have hf : ∀ x : Row,
      ((if x.barcode = b then
        { x with retry_count := x.retry_count + 1, last_attempt := some now }
      else x)).barcode = x.barcode := by
    intro x
    by_cases hb : x.barcode = b <;> simp [hb]
  rw [rowOf_map_pres db b _ hf, hfind]
  simp [barcode_of_rowOf hfind]

lemma rowOf_mark_step {db : List Row} {b : String} {r : Row}
    (hfind : rowOf db b = some r) (s : Step) (m : Option Metadata) (now : ℕ) :
    rowOf (mark_processing_step_complete db b s m now) b
      = some { applyMetadata (setStepFlag r s) m with last_attempt := some now } := by
  unfold mark_processing_step_complete
  have hf : ∀ x : Row,
      ((if x.barcode = b then
        { applyMetadata (setStepFlag x s) m with last_attempt := some now }
      else x)).barcode = x.barcode := by
    intro x
    by_cases hb : x.barcode = b
    · cases s <;> cases m <;> simp [hb, applyMetadata, setStepFlag]
    · simp [hb]
  rw [rowOf_map_pres db b _ hf, hfind]
  simp [barcode_of_rowOf hfind]

lemma statuses_mark_step (db : List Row) (b : String) (s : Step)
    (m : Option Metadata) (now : ℕ) :
    (mark_processing_step_complete db b s m now).map (·.status)
      = db.map (·.status) := by
  unfold mark_processing_step_complete
  rw [List.map_map]
  apply List.map_congr_left
  intro r _
  by_cases hb : r.barcode = b
  · cases s <;> cases m <;> simp [hb, Function.comp, applyMetadata, setStepFlag]
  · simp [hb, Function.comp]

/-! ### Claim C2: where unexpected errors fail the item immediately -/

/-- Claim C2 counterexample: the queue holds the single fresh item "B2"
(retry_count 0) and its pipeline run raises an unexpected, unclassified
error ("boom") inside the metadata client call. The claim demands
status failed with retry_count still 0; the code instead wraps the error
into MusicBrainzError inside the client (async_musicbrainz.py lines
59-61), so the worker's MusicBrainzError clause runs: retry_count is
incremented to 1 and the item is returned to pending, not failed. -/
theorem claim_C2_unexpected_in_client_is_retried :
    let db0 := (add_barcode [] "B2" 0).2
    let env : Env := ⟨.unexpected "boom", none, .unavailable, .ok []⟩
    let db1 := (run_attempt db0 env [] 1).1
    statusOf db1 "B2" = some .pending ∧
    statusOf db1 "B2" ≠ some .failed ∧
    retryOf db1 "B2" = some 1 := by
  decide

/-- Claim C2 as amended: an unexpected error arising in the worker's own
pipeline code OUTSIDE the metadata client (here: the catalog write after
a successful lookup) fails the item immediately, stores the exception
detail, and leaves retry_count untouched; unexpected errors inside the
client's calls are instead wrapped as classified API errors and follow
the capped retry path. -/
theorem claim_C2_unexpected_outside_client_fails_immediately
    (db : List Row) (item r0 : Row) (meta : Metadata) (msg : String)
    (cov : CoverOutcome) (rt : RawTracks) (ledger : List String) (now : ℕ)
    (hfind : rowOf db item.barcode = some r0)
    (hmeta : item.metadata_complete = false) :
    let res := process_barcode_item db item ⟨.found meta, some msg, cov, rt⟩ ledger now
    statusOf res.1 item.barcode = some .failed ∧
    errorOf res.1 item.barcode = some (some ("Unexpected error: " ++ msg)) ∧
    retryOf res.1 item.barcode = some r0.retry_count := by
  intro res
  have hbody : pipeline_body db item ⟨.found meta, some msg, cov, rt⟩ ledger now
      = ((update_status db item.barcode .processing none now, ledger),
         some (.unexpected msg)) := by
    unfold pipeline_body
    rw [hmeta]
    rfl
  have hres : res
      = (handle_pipeline_error (update_status db item.barcode .processing none now)
          item.barcode item.retry_count (.unexpected msg) now, ledger) := by
    show process_barcode_item db item ⟨.found meta, some msg, cov, rt⟩ ledger now = _
    unfold process_barcode_item
    rw [hbody]
  have hfind1 := rowOf_update_status hfind Status.processing none now
  have hfind2 := rowOf_update_status hfind1 Status.failed
    (some ("Unexpected error: " ++ msg)) now
  have hdb : res.1 =
      update_status (update_status db item.barcode .processing none now)
        item.barcode .failed (some ("Unexpected error: " ++ msg)) now := by
    rw [hres]
    rfl
  rw [hdb]
  unfold statusOf errorOf retryOf
  rw [hfind2]
  simp

/-- Witness for the amended claim C2 at a concrete store. -/
theorem claim_C2_witness :
    let res := process_barcode_item [newRow "B4" 0] (newRow "B4" 0)
      ⟨.found ⟨"a", "b", "c", "m"⟩, some "disk full", .unavailable, .ok []⟩ [] 1
    statusOf res.1 (newRow "B4" 0).barcode = some .failed ∧
    errorOf res.1 (newRow "B4" 0).barcode
      = some (some ("Unexpected error: " ++ "disk full")) ∧
    retryOf res.1 (newRow "B4" 0).barcode = some (newRow "B4" 0).retry_count :=
  claim_C2_unexpected_outside_client_fails_immediately
    [newRow "B4" 0] (newRow "B4" 0) (newRow "B4" 0) ⟨"a", "b", "c", "m"⟩
    "disk full" .unavailable (.ok []) [] 1 (by decide) (by decide)

/-! ### Claim C3: ServiceUnavailable retry exhaustion -/

/-- Claim C3: an item whose every attempt raises ServiceUnavailable is
returned to pending with retry_count 1 after the first attempt and
retry_count 2 after the second; the third attempt fails it with
retry_count 3 and the last error message stored on the record. -/
theorem claim_C3_service_unavailable_retry_exhaustion
    (b msg : String) (t0 t1 t2 t3 : ℕ) :
    let env : Env := ⟨.wsError503 msg, none, .unavailable, .ok []⟩
    let db0 := (add_barcode [] b t0).2
    let db1 := (run_attempt db0 env [] t1).1
    let db2 := (run_attempt db1 env [] t2).1
    let db3 := (run_attempt db2 env [] t3).1
    statusOf db1 b = some .pending ∧ retryOf db1 b = some 1 ∧
    statusOf db2 b = some .pending ∧ retryOf db2 b = some 2 ∧
    statusOf db3 b = some .failed ∧ retryOf db3 b = some 3 ∧
    errorOf db3 b
      = some (some ("Max retries exceeded: "
          ++ ("MusicBrainz service unavailable: " ++ msg))) := by
  dsimp only
  simp [run_attempt, get_next_pending, process_barcode_item, pipeline_body,
    lookup_by_barcode, handle_pipeline_error, update_status,
    increment_retry_count, max_retries, newRow, add_barcode, rowOf,
    statusOf, retryOf, errorOf, get_queue_position]

/-! ### Claim C8: the cover-art step never fails the item -/

/-- Claim C8: for an item entering the cover-art step (flag still
false), every outcome — file already cached, verified fetch, image
unavailable, exception during the fetch, or no external id known —
leaves coverart_complete true and the status column of every row
untouched (in particular the item is never failed by this step); and the
barcode is appended to the no-result ledger exactly when the outcome
obtained no image. -/
theorem claim_C8_coverart_never_fails
    (db : List Row) (item2 : Row) (outcome : CoverOutcome)
    (ledger : List String) (now : ℕ)
    (hfind : rowOf db item2.barcode = some item2)
    (hflag : item2.coverart_complete = false)
    (hnotin : item2.barcode ∉ ledger) :
    let res := cover_art_step db item2 outcome ledger now
    stepFlagOf res.1 item2.barcode .coverart = some true ∧
    res.1.map (·.status) = db.map (·.status) ∧
    res.2 = (if cover_no_image item2 outcome then
      ledger ++ [item2.barcode] else ledger) := by
  intro res
  have hmarkflag : stepFlagOf
      (mark_processing_step_complete db item2.barcode .coverart none now)
      item2.barcode .coverart = some true := by
    unfold stepFlagOf
    rw [rowOf_mark_step hfind .coverart none now]
    simp [stepFlag, applyMetadata, setStepFlag]
  have hmarkstatus := statuses_mark_step db item2.barcode .coverart none now
  have happend : append_to_no_coverart ledger item2.barcode
      = ledger ++ [item2.barcode] := by
    unfold append_to_no_coverart
    rw [if_neg hnotin]
  have hres : res = cover_art_step db item2 outcome ledger now := rfl
  unfold cover_art_step at hres
  rw [hflag] at hres
  by_cases hmb : mbidKnown item2 = true
  · simp only [hmb, Bool.false_eq_true, if_false, if_true] at hres
    cases outcome with
    | cached =>
      rw [hres]
      exact ⟨hmarkflag, hmarkstatus, by simp [cover_no_image, hmb]⟩
    | fetched =>
      rw [hres]
      exact ⟨hmarkflag, hmarkstatus, by simp [cover_no_image, hmb]⟩
    | unavailable =>
      rw [hres]
      exact ⟨hmarkflag, hmarkstatus, by simp [cover_no_image, hmb, happend]⟩
    | raisedExn m =>
      rw [hres]
      exact ⟨hmarkflag, hmarkstatus, by simp [cover_no_image, hmb, happend]⟩
  · have hmb2 : mbidKnown item2 = false := by simpa using hmb
    simp only [hmb2, Bool.false_eq_true, if_false] at hres
    rw [hres]
    exact ⟨hmarkflag, hmarkstatus, by simp [cover_no_image, hmb2, happend]⟩

/-- A metadata-complete item with a known external id, entering the
cover-art step. -/
def c8row : Row := { newRow "B1" 0 with metadata_complete := true, mbid := some "m1" }

/-- Witness for claim C8 at a concrete store, with the image
unavailable: the step completes, no status changes, and "B1" lands in
the no-result ledger. -/
theorem claim_C8_witness :
    let res := cover_art_step [c8row] c8row .unavailable [] 5
    stepFlagOf res.1 c8row.barcode .coverart = some true ∧
    res.1.map (·.status) = [c8row].map (·.status) ∧
    res.2 = (if cover_no_image c8row .unavailable then
      [] ++ [c8row.barcode] else []) :=
  claim_C8_coverart_never_fails [c8row] c8row .unavailable [] 5
    (by decide) (by decide) (by decide)

end MbAlbum
